import Mathlib

/-!
Shallow embedding of the CommunitySafe hazard-reporting application
(`src/app.py`) for checking its natural-language specification.

The embedding models:
* request payloads as optional JSON values (strings / numbers / null),
  with Python truthiness (`not data[field]`);
* the `hazard_reports` table as a list of rows plus the AUTOINCREMENT
  counter of the next id;
* the image-ingestion pipeline of `report_hazard` / `resolve_hazard`:
  the `startswith('data:image')` check, `split(',', 1)`,
  `header.split(';')[0].split('/')[1]`, and `base64.b64decode`
  (standard base64 with padding; nonconforming input is treated as a
  decoding exception, which the handlers map to a 500 response);
* file writes as a returned list of (filename, bytes) pairs;
* the admin session flag `session.get('admin_logged_in')` as a boolean.

Timestamps (`datetime.now()`) are passed in explicitly as a natural
number `now`; filenames embed it through its decimal digits in place of
the `%Y%m%d_%H%M%S` rendering, which no claim depends on.
-/

/-- A JSON value as it can appear in the request payloads of `app.py`:
a string, a number, or null.  (The handlers never look inside arrays or
objects, so those are not modelled.) -/
inductive Json where
  | str : List Char → Json
  | num : Rat → Json
  | null : Json
deriving DecidableEq, Repr

/-- Python truthiness of a JSON value, as tested by `not data[field]`:
a string is truthy iff non-empty, a number iff nonzero, null is falsy. -/
def Json.truthy : Json → Bool
  | .str s => !s.isEmpty
  | .num q => decide (q ≠ 0)
  | .null => false

/-- Truthiness of an optional field: `field not in data or not data[field]`
fails exactly when the field is present and truthy. -/
def truthyOpt : Option Json → Bool
  | none => false
  | some v => v.truthy

/-- Python's `s.split(sep, 1)` followed by unpacking into two variables:
succeeds with the parts before and after the first occurrence of `sep`,
and fails (a `ValueError`) when `sep` does not occur. -/
def splitOnceOn (sep : Char) : List Char → Option (List Char × List Char)
  | [] => none
  | c :: rest =>
    if c = sep then some ([], rest)
    else (splitOnceOn sep rest).map (fun pr => (c :: pr.1, pr.2))

/-- Python's `s.split(sep)[0]`: the characters before the first
occurrence of `sep` (all of `s` if `sep` does not occur). -/
def takeUntil (sep : Char) (l : List Char) : List Char :=
  l.takeWhile (fun c => c ≠ sep)

/-- Python's `s.split(sep)[1]`: the field between the first and second
occurrence of `sep`; fails (an `IndexError`) when `sep` does not occur. -/
def secondField (sep : Char) (l : List Char) : Option (List Char) :=
  match splitOnceOn sep l with
  | none => none
  | some pr => some (takeUntil sep pr.2)

/-- The standard base64 alphabet, as used by `base64.b64encode` /
`base64.b64decode`. -/
def b64alphabet : List Char :=
  "ABCDEFGHIJKLMNOPQRSTUVWXYZabcdefghijklmnopqrstuvwxyz0123456789+/".toList

/-- Index of a character in a list (used to map a base64 character to
its 6-bit value); `none` when absent. -/
def lookupIdx (c : Char) : List Char → Option Nat
  | [] => none
  | a :: rest => if a = c then some 0 else (lookupIdx c rest).map (· + 1)

/-- The base64 character for a 6-bit value. -/
def enc1 (n : Nat) : Char :=
  b64alphabet.getD n 'A'

/-- `base64.b64encode` on a list of bytes (each `< 256`): groups of
three bytes become four alphabet characters; a final group of one or
two bytes is padded with `=`. -/
def b64encode : List Nat → List Char
  | [] => []
  | [a] => [enc1 (a / 4), enc1 (a % 4 * 16), '=', '=']
  | [a, b] => [enc1 (a / 4), enc1 (a % 4 * 16 + b / 16), enc1 (b % 16 * 4), '=']
  | a :: b :: c :: rest =>
    enc1 (a / 4) :: enc1 (a % 4 * 16 + b / 16) :: enc1 (b % 16 * 4 + c / 64) ::
      enc1 (c % 64) :: b64encode rest

/-- `base64.b64decode` on standard-conformant input: groups of four
alphabet characters become three bytes, with `=`-padding allowed only
at the end.  Input that is not standard-conformant base64 is mapped to
`none`, the decoding-exception path of the handlers. -/
def b64decode : List Char → Option (List Nat)
  | [] => some []
  | a :: b :: c :: d :: rest =>
    match lookupIdx a b64alphabet, lookupIdx b b64alphabet with
    | some x, some y =>
      if c = '=' then
        if d = '=' && rest.isEmpty then some [x * 4 + y / 16] else none
      else
        match lookupIdx c b64alphabet with
        | some z =>
          if d = '=' then
            if rest.isEmpty then some [x * 4 + y / 16, y % 16 * 16 + z / 4] else none
          else
            match lookupIdx d b64alphabet with
            | some w =>
              (b64decode rest).map
                (fun t => (x * 4 + y / 16) :: (y % 16 * 16 + z / 4) :: (z % 4 * 64 + w) :: t)
            | none => none
        | none => none
    | _, _ => none
  | _ => none

/-- The data-URI processing shared by `report_hazard` and
`resolve_hazard` (lines 93-104 and 190-201 of `app.py`), after the
`startswith('data:image')` check has succeeded:
`header, base64_data = uri.split(',', 1)`;
`file_extension = header.split(';')[0].split('/')[1]`;
`base64.b64decode(base64_data)`.
Returns the file extension and the decoded bytes, or `none` when any of
these steps raises (which the handlers turn into a 500 response). -/
def ingestImage (uri : List Char) : Option (List Char × List Nat) :=
  match splitOnceOn ',' uri with
  | none => none
  | some pr =>
    match secondField '/' (takeUntil ';' pr.1) with
    | none => none
    | some ext =>
      match b64decode pr.2 with
      | none => none
      | some bytes => some (ext, bytes)

/-- The generated filename `f"{pre}_{timestamp}.{ext}"`; the
`%Y%m%d_%H%M%S` timestamp rendering is represented by the decimal
digits of `now`. -/
def mkFilename (pre : List Char) (now : Nat) (ext : List Char) : List Char :=
  pre ++ '_' :: Nat.toDigits 10 now ++ '.' :: ext

/-- One row of the `hazard_reports` table.  `description`, `latitude`
and `longitude` store the JSON values received in the request;
`before_image` and `after_image` store generated filenames; the
nullable columns `after_image` and `date_resolved` are `Option`s. -/
structure HazardRow where
  id : Nat
  before_image : List Char
  after_image : Option (List Char)
  description : Json
  latitude : Json
  longitude : Json
  status : List Char
  date_reported : Nat
  date_resolved : Option Nat
deriving DecidableEq, Repr

/-- The `hazard_reports` table: its rows in insertion order, and the
AUTOINCREMENT counter holding the id the next insert will receive. -/
structure DB where
  rows : List HazardRow
  nextId : Nat
deriving DecidableEq, Repr

/-- The database as created by `init_db`: no hazard reports,
AUTOINCREMENT starting at 1. -/
def initDB : DB := { rows := [], nextId := 1 }

/-- The JSON body of a `POST /api/report` request: each of the four
fields the handler reads, `none` when absent. -/
structure ReportRequest where
  before_image : Option Json
  description : Option Json
  latitude : Option Json
  longitude : Option Json
deriving DecidableEq, Repr

/-- The JSON body of a `POST /admin/resolve/<id>` request. -/
structure ResolveRequest where
  after_image : Option Json
deriving DecidableEq, Repr

/-- Outcome of `report_hazard`, tagged with the HTTP error class. -/
inductive ReportResult where
  /-- 400, `'Missing required field: <f>'`. -/
  | missingField : List Char → ReportResult
  /-- 400, `'Invalid image format'`. -/
  | invalidImageFormat : ReportResult
  /-- 500, `'Internal server error'` (an exception was raised). -/
  | internalError : ReportResult
  /-- 200, `{'success': True, 'report_id': id}`. -/
  | success : Nat → ReportResult
deriving DecidableEq, Repr

/-- Outcome of `resolve_hazard`, tagged with the HTTP error class. -/
inductive ResolveResult where
  /-- 401, `'Unauthorized'`. -/
  | unauthorized : ResolveResult
  /-- 400, `'Invalid after image'`. -/
  | invalidAfterImage : ResolveResult
  /-- 500, `'Internal server error'` (an exception was raised). -/
  | internalError : ResolveResult
  /-- 200, `{'success': True}`. -/
  | success : ResolveResult
deriving DecidableEq, Repr

/-- The required-field loop of `report_hazard` (lines 84-87):
for each field of `['before_image', 'description', 'latitude',
'longitude']` in order, `if field not in data or not data[field]`
returns that field's name; `none` when all four are present and
truthy. -/
def firstMissingField (req : ReportRequest) : Option (List Char) :=
  if !truthyOpt req.before_image then some ("before_image".toList)
  else if !truthyOpt req.description then some ("description".toList)
  else if !truthyOpt req.latitude then some ("latitude".toList)
  else if !truthyOpt req.longitude then some ("longitude".toList)
  else none

/-- Field access `data[f]` on a report request, by field name. -/
def ReportRequest.getField (req : ReportRequest) (f : List Char) : Option Json :=
  if f = "before_image".toList then req.before_image
  else if f = "description".toList then req.description
  else if f = "latitude".toList then req.latitude
  else if f = "longitude".toList then req.longitude
  else none

/-- The four required field names of `report_hazard`. -/
def reportRequiredFields : List (List Char) :=
  ["before_image".toList, "description".toList, "latitude".toList, "longitude".toList]

/-- `report_hazard` (`POST /api/report`, lines 78-135 of `app.py`).
Returns the response, the resulting database, and the list of
(filename, bytes) files written to the "before" upload directory.
Control flow of the source: validate the four required fields in order;
check `before_image` starts with `'data:image'` (else 400); run the
data-URI pipeline and write the decoded file; insert a row with
`status='Pending'` and `date_reported=now`; return the new row id.
Any exception (a non-string `before_image`, a malformed URI, a base64
error) is caught and mapped to a 500 response. -/
def report_hazard (req : ReportRequest) (db : DB) (now : Nat) :
    ReportResult × DB × List (List Char × List Nat) :=
  match firstMissingField req with
  | some f => (.missingField f, db, [])
  | none =>
    match req.before_image with
    | some (.str s) =>
      if ("data:image".toList).isPrefixOf s then
        match ingestImage s with
        | none => (.internalError, db, [])
        | some pr =>
          let filename := mkFilename ("hazard".toList) now pr.1
          let row : HazardRow :=
            { id := db.nextId
              before_image := filename
              after_image := none
              description := (req.description).getD .null
              latitude := (req.latitude).getD .null
              longitude := (req.longitude).getD .null
              status := "Pending".toList
              date_reported := now
              date_resolved := none }
          (.success db.nextId,
           { rows := db.rows ++ [row], nextId := db.nextId + 1 },
           [(filename, pr.2)])
      else (.invalidImageFormat, db, [])
    | some (.num _) => (.internalError, db, [])
    | some .null => (.internalError, db, [])
    | none => (.internalError, db, [])

/-- The row transformation of the UPDATE statement of lines 205-209:
a row whose id equals the targeted report id gets `after_image = fn`,
`status = 'Resolved'` and `date_resolved = now`; any other row is
untouched. -/
def resolveUpdate (reportId : Nat) (fn : List Char) (now : Nat) (r : HazardRow) : HazardRow :=
  if r.id = reportId then
    { r with after_image := some fn
             status := "Resolved".toList
             date_resolved := some now }
  else r

/-- `resolve_hazard` (`POST /admin/resolve/<report_id>`, lines 177-220
of `app.py`).  `adminLoggedIn` is the truthiness of
`session.get('admin_logged_in')`.  Returns the response, the resulting
database, and the files written to the "after" upload directory.
Control flow of the source: the session check (401); then
`if not after_image_data or not after_image_data.startswith('data:image')`
(400); then the data-URI pipeline and file write; then the UPDATE
setting `after_image`, `status='Resolved'` and `date_resolved` on every
row whose id equals `report_id` (which always reports success, whether
or not a row matched).  A non-string truthy `after_image` raises
`AttributeError` at `.startswith`, caught and mapped to 500. -/
def resolve_hazard (reportId : Nat) (adminLoggedIn : Bool) (req : ResolveRequest)
    (db : DB) (now : Nat) :
    ResolveResult × DB × List (List Char × List Nat) :=
  if !adminLoggedIn then (.unauthorized, db, [])
  else
    match req.after_image with
    | none => (.invalidAfterImage, db, [])
    | some v =>
      if !v.truthy then (.invalidAfterImage, db, [])
      else
        match v with
        | .str s =>
          if ("data:image".toList).isPrefixOf s then
            match ingestImage s with
            | none => (.internalError, db, [])
            | some pr =>
              let filename := mkFilename ("resolved".toList) now pr.1
              (.success,
               { db with rows := db.rows.map (resolveUpdate reportId filename now) },
               [(filename, pr.2)])
          else (.invalidAfterImage, db, [])
        | _ => (.internalError, db, [])

/-- The query of `history` and `admin_dashboard` (lines 71-74 and
169-172): `SELECT * FROM hazard_reports ORDER BY date_reported DESC`.
Modelled as a sort of the rows by `date_reported` descending; the order
of rows with equal `date_reported` is not specified by SQL, and the
model uses a stable insertion sort. -/
def listReports (db : DB) : List HazardRow :=
  List.insertionSort (fun a b => b.date_reported ≤ a.date_reported) db.rows

/-- A list of rows is strictly descending in `date_reported` when each
adjacent pair strictly decreases. -/
def strictlyDescByDate : List HazardRow → Bool
  | [] => true
  | [_] => true
  | a :: b :: rest =>
    decide (b.date_reported < a.date_reported) && strictlyDescByDate (b :: rest)

/-- One state transition of the `hazard_reports` table: some request
handled by `report_hazard` or `resolve_hazard` (the only two handlers
that write to the table). -/
inductive Step : DB → DB → Prop where
  | report (req : ReportRequest) (now : Nat) (db : DB) :
      Step db (report_hazard req db now).2.1
  | resolve (reportId : Nat) (adminLoggedIn : Bool) (req : ResolveRequest)
      (now : Nat) (db : DB) :
      Step db (resolve_hazard reportId adminLoggedIn req db now).2.1

/-- A database state reachable from initialization by any sequence of
requests. -/
def Reachable (db : DB) : Prop :=
  Relation.ReflTransGen Step initDB db

/-- The C1 invariant: in every row, `after_image` and `date_resolved`
are both present iff `status = 'Resolved'`. -/
def resolvedInvariant (db : DB) : Prop :=
  ∀ r ∈ db.rows,
    ((r.after_image ≠ none ∧ r.date_resolved ≠ none) ↔ r.status = "Resolved".toList)

/-- Well-formedness of the AUTOINCREMENT counter: every issued id is
below the next id to be issued. -/
def DB.idsBelowNext (db : DB) : Prop :=
  ∀ r ∈ db.rows, r.id < db.nextId

/-- A sample pending row (used to evaluate the model on concrete
states). -/
def sampleRow (i dt : Nat) : HazardRow :=
  { id := i
    before_image := mkFilename ("hazard".toList) dt ("png".toList)
    after_image := none
    description := .str ("pothole".toList)
    latitude := .num 12
    longitude := .num 77
    status := "Pending".toList
    date_reported := dt
    date_resolved := none }

/-- A sample well-formed report request whose `before_image` is the
data URI `data:image/png;base64,QQ==`. -/
def sampleRequest : ReportRequest :=
  { before_image := some (.str ("data:image/png;base64,QQ==".toList))
    description := some (.str ("pothole".toList))
    latitude := some (.num 12)
    longitude := some (.num 77) }

/-- A report request identical to `sampleRequest` except that its
`before_image` is `data:image/png,QQ==` — it starts with `data:image`
but lacks the `;base64` marker, so it does not match the full pattern
`data:image/<subtype>;base64,<payload>`. -/
def noMarkerRequest : ReportRequest :=
  { sampleRequest with before_image := some (.str ("data:image/png,QQ==".toList)) }

/-- A sample row that has already been resolved. -/
def resolvedSampleRow : HazardRow :=
  { sampleRow 1 5 with after_image := some ("old.png".toList)
                       status := "Resolved".toList
                       date_resolved := some 3 }

/-- A sample well-formed resolve request whose `after_image` is the
data URI `data:image/png;base64,QQ==`. -/
def afterRequest : ResolveRequest :=
  { after_image := some (.str ("data:image/png;base64,QQ==".toList)) }

/-! ## Base64 lemmas -/

/-- Every 6-bit value decodes back from its base64 character. -/
theorem lookupIdx_enc1 : ∀ n, n < 64 → lookupIdx (enc1 n) b64alphabet = some n := by
  decide

/-- No base64 alphabet character is the padding character. -/
theorem enc1_ne_pad : ∀ n, n < 64 → enc1 n ≠ '=' := by
  decide

/-- `b64decode` inverts `b64encode` on every list of bytes. -/
theorem b64_roundtrip : ∀ bs : List Nat, (∀ b ∈ bs, b < 256) →
    b64decode (b64encode bs) = some bs
  | [], _ => by simp [b64encode, b64decode]
  | [a], h => by
    have ha : a < 256 := h a (by simp)
    have h1 : a / 4 < 64 := by omega
    have h2 : a % 4 * 16 < 64 := by omega
    simp only [b64encode, b64decode, lookupIdx_enc1 _ h1, lookupIdx_enc1 _ h2]
    simp
    omega
  | [a, b], h => by
    have ha : a < 256 := h a (by simp)
    have hb : b < 256 := h b (by simp)
    have h1 : a / 4 < 64 := by omega
    have h2 : a % 4 * 16 + b / 16 < 64 := by omega
    have h3 : b % 16 * 4 < 64 := by omega
    simp only [b64encode, b64decode, lookupIdx_enc1 _ h1, lookupIdx_enc1 _ h2,
      lookupIdx_enc1 _ h3, if_neg (enc1_ne_pad _ h3)]
    simp
    omega
  | a :: b :: c :: rest, h => by
    have ha : a < 256 := h a (by simp)
    have hb : b < 256 := h b (by simp)
    have hc : c < 256 := h c (by simp)
    have ih : b64decode (b64encode rest) = some rest :=
      b64_roundtrip rest (fun x hx => h x (by simp [hx]))
    have h1 : a / 4 < 64 := by omega
    have h2 : a % 4 * 16 + b / 16 < 64 := by omega
    have h3 : b % 16 * 4 + c / 64 < 64 := by omega
    have h4 : c % 64 < 64 := by omega
    simp only [b64encode, b64decode, lookupIdx_enc1 _ h1, lookupIdx_enc1 _ h2,
      lookupIdx_enc1 _ h3, lookupIdx_enc1 _ h4,
      if_neg (enc1_ne_pad _ h3), if_neg (enc1_ne_pad _ h4)]
    rw [ih]
    simp
    refine ⟨by omega, by omega, by omega⟩

/-! ## Data-URI lemmas -/

/-- Splitting at the first separator of `l ++ sep :: rest` yields
`(l, rest)` when `l` is separator-free. -/
theorem splitOnceOn_of_not_mem (sep : Char) (l rest : List Char)
    (h : ∀ c ∈ l, c ≠ sep) : splitOnceOn sep (l ++ sep :: rest) = some (l, rest) := by
  induction l with
  | nil => simp [splitOnceOn]
  | cons c t ih =>
    have hc : c ≠ sep := h c (by simp)
    simp [splitOnceOn, hc, ih (fun x hx => h x (by simp [hx]))]

/-- Ingesting `data:image/png;base64,<p>` for a decodable payload `p`
yields extension `png` and the decoded bytes of `p`. -/
theorem ingestImage_png (p : List Char) (bytes : List Nat)
    (hp : b64decode p = some bytes) :
    ingestImage ("data:image/png;base64,".toList ++ p) = some ("png".toList, bytes) := by
  have he : "data:image/png;base64,".toList ++ p
      = "data:image/png;base64".toList ++ ',' :: p := rfl
  have hsplit := splitOnceOn_of_not_mem ',' ("data:image/png;base64".toList) p (by decide)
  have hext : secondField '/' (takeUntil ';' ("data:image/png;base64".toList))
      = some ("png".toList) := by decide
  unfold ingestImage
  rw [he]
  simp only [hsplit, hext, hp]

/-! ## Database-shape lemmas -/

/-- `report_hazard` either leaves the table unchanged or appends one
`Pending` row carrying the next id, with `after_image` and
`date_resolved` absent, and bumps the id counter. -/
theorem report_hazard_db_cases (req : ReportRequest) (db : DB) (now : Nat) :
    (report_hazard req db now).2.1 = db ∨
    ∃ row : HazardRow, row.after_image = none ∧ row.date_resolved = none ∧
      row.status = "Pending".toList ∧ row.id = db.nextId ∧
      (report_hazard req db now).2.1
        = { rows := db.rows ++ [row], nextId := db.nextId + 1 } := by
  cases hm : firstMissingField req with
  | some f => left; simp [report_hazard, hm]
  | none =>
    cases hb : req.before_image with
    | none => left; simp [report_hazard, hm, hb]
    | some v =>
      cases v with
      | num q => left; simp [report_hazard, hm, hb]
      | null => left; simp [report_hazard, hm, hb]
      | str s =>
        by_cases hpre : ("data:image".toList) <+: s
        · simp at hpre
          cases hi : ingestImage s with
          | none => left; simp [report_hazard, hm, hb, hpre, hi]
          | some pr =>
            right
            refine ⟨{ id := db.nextId
                      before_image := mkFilename ("hazard".toList) now pr.1
                      after_image := none
                      description := (req.description).getD .null
                      latitude := (req.latitude).getD .null
                      longitude := (req.longitude).getD .null
                      status := "Pending".toList
                      date_reported := now
                      date_resolved := none }, rfl, rfl, rfl, rfl, ?_⟩
            simp [report_hazard, hm, hb, hpre, hi]
        · left; simp at hpre
          simp [report_hazard, hm, hb, hpre]

/-- `resolve_hazard` either leaves the table unchanged or rewrites it
by the UPDATE of lines 205-209: every row whose id matches gets some
filename as `after_image`, status `Resolved` and `date_resolved = now`;
every other row is kept as is. -/
theorem resolve_hazard_db_cases (rid : Nat) (admin : Bool) (req : ResolveRequest)
    (db : DB) (now : Nat) :
    (resolve_hazard rid admin req db now).2.1 = db ∨
    ∃ fn : List Char, (resolve_hazard rid admin req db now).2.1
      = { db with rows := db.rows.map (resolveUpdate rid fn now) } := by
  cases admin with
  | false => left; simp [resolve_hazard]
  | true =>
    cases ha : req.after_image with
    | none => left; simp [resolve_hazard, ha]
    | some v =>
      by_cases ht : v.truthy = true
      · cases v with
        | num q => left; simp [resolve_hazard, ha, ht]
        | null => left; simp [resolve_hazard, ha, ht]
        | str s =>
          by_cases hpre : ("data:image".toList) <+: s
          · simp at hpre
            cases hi : ingestImage s with
            | none => left; simp [resolve_hazard, ha, ht, hpre, hi]
            | some pr =>
              right
              exact ⟨mkFilename ("resolved".toList) now pr.1,
                by simp [resolve_hazard, ha, ht, hpre, hi]⟩
          · left; simp at hpre
            simp [resolve_hazard, ha, ht, hpre]
      · left; simp [resolve_hazard, ha, ht]

/-! ## Invariant preservation -/

/-- The resolved-fields invariant is preserved by every transition. -/
theorem resolvedInvariant_step (a b : DB) (hs : Step a b)
    (ih : resolvedInvariant a) : resolvedInvariant b := by
  have hPR : "Pending".toList ≠ "Resolved".toList := by decide
  cases hs with
  | report req now =>
    rcases report_hazard_db_cases req a now with he | ⟨row, h1, h2, h3, _, he⟩
    · rw [he]; exact ih
    · rw [he]; intro r hr
      simp only [List.mem_append, List.mem_singleton] at hr
      rcases hr with hr | hr
      · exact ih r hr
      · subst hr
        simp [h1, h3, hPR]
  | resolve rid admin req now =>
    rcases resolve_hazard_db_cases rid admin req a now with he | ⟨fn, he⟩
    · rw [he]; exact ih
    · rw [he]; intro r hr
      simp only [List.mem_map] at hr
      obtain ⟨r0, hr0, hfr⟩ := hr
      simp only [resolveUpdate] at hfr
      by_cases hid : r0.id = rid
      · rw [if_pos hid] at hfr
        subst hfr
        simp
      · rw [if_neg hid] at hfr
        subst hfr
        exact ih r0 hr0

/-- Id-counter well-formedness is preserved by every transition. -/
theorem idsBelowNext_step (a b : DB) (hs : Step a b)
    (ih : a.idsBelowNext) : b.idsBelowNext := by
  cases hs with
  | report req now =>
    rcases report_hazard_db_cases req a now with he | ⟨row, _, _, _, h4, he⟩
    · rw [he]; exact ih
    · rw [he]; intro r hr
      simp only [List.mem_append, List.mem_singleton] at hr
      rcases hr with hr | hr
      · have := ih r hr; simp only []; omega
      · subst hr; simp only []; omega
  | resolve rid admin req now =>
    rcases resolve_hazard_db_cases rid admin req a now with he | ⟨fn, he⟩
    · rw [he]; exact ih
    · rw [he]; intro r hr
      simp only [List.mem_map] at hr
      obtain ⟨r0, hr0, hfr⟩ := hr
      simp only [resolveUpdate] at hfr
      have hid0 := ih r0 hr0
      by_cases hid : r0.id = rid
      · rw [if_pos hid] at hfr; subst hfr; simpa using hid0
      · rw [if_neg hid] at hfr; subst hfr; exact hid0

/-- Every reachable database has all issued ids below the id counter. -/
theorem reachable_idsBelowNext (db : DB) (h : Reachable db) : db.idsBelowNext := by
  induction h with
  | refl => intro r hr; simp [initDB] at hr
  | tail _ hstep ih => exact idsBelowNext_step _ _ hstep ih

/-! ## Claims -/

/-- C1: in every reachable database state, each `hazard_reports` row
has `after_image` and `date_resolved` both present iff its status is
`Resolved`; the invariant holds after initialization, is preserved by
`report_hazard` (which inserts a Pending row with both fields absent)
and by `resolve_hazard` (which sets the after image, the Resolved
status and the resolution date together in one update). -/
theorem c1_resolved_iff_invariant (db : DB) (h : Reachable db) :
    resolvedInvariant db := by
  induction h with
  | refl => intro r hr; simp [initDB] at hr
  | tail _ hstep ih => exact resolvedInvariant_step _ _ hstep ih

/-- Witness for C1: the invariant at the concrete state reached by one
valid submission followed by one resolve of report 1. -/
theorem c1_resolved_iff_invariant_witness :
    resolvedInvariant
      ((resolve_hazard 1 true
          { after_image := some (.str ("data:image/png;base64,QQ==".toList)) }
          ((report_hazard sampleRequest initDB 5).2.1) 9).2.1) :=
  c1_resolved_iff_invariant _
    (Relation.ReflTransGen.tail
      (Relation.ReflTransGen.tail Relation.ReflTransGen.refl
        (Step.report sampleRequest 5 initDB))
      (Step.resolve 1 true _ 9 _))

/-- C5: a resolve call whose session does not carry the admin flag is
rejected as Unauthorized before any processing: the database is
unchanged and no file is written, whatever the request body holds. -/
theorem c5_unauthorized_no_effect (rid : Nat) (req : ResolveRequest)
    (db : DB) (now : Nat) :
    resolve_hazard rid false req db now = (.unauthorized, db, []) := by
  simp [resolve_hazard]

/-- C8 (amended): `listReports` returns every row of `hazard_reports`
with no pagination and no filtering, ordered by `date_reported`
descending, i.e. non-increasing; the order is not strictly descending
in general because rows may share a `date_reported`. -/
theorem c8_list_all_sorted_desc (db : DB) :
    List.Perm (listReports db) db.rows ∧
    List.Sorted (fun a b => b.date_reported ≤ a.date_reported) (listReports db) := by
  constructor
  · exact List.perm_insertionSort _ _
  · haveI h1 : IsTotal HazardRow (fun a b => b.date_reported ≤ a.date_reported) :=
      ⟨fun a b => Nat.le_total _ _⟩
    haveI h2 : IsTrans HazardRow (fun a b => b.date_reported ≤ a.date_reported) :=
      ⟨fun a b c hab hbc => le_trans hbc hab⟩
    exact List.sorted_insertionSort _ _

/-- C8 counterexample: after two submissions within the same timestamp
(both rows have `date_reported = 5`), the listing is not strictly
descending in `date_reported`, refuting the strictness in the claim. -/
theorem c8_counterexample :
    strictlyDescByDate (listReports
      ((report_hazard sampleRequest
          ((report_hazard sampleRequest initDB 5).2.1) 5).2.1)) = false := by
  decide

/-- C2 counterexample: the before image `data:image/png,QQ==` does not
match the full pattern `data:image/<subtype>;base64,<payload>` (it
lacks the `;base64` marker), yet `report_hazard` accepts the
submission instead of rejecting it with InvalidImageFormat. -/
theorem c2_counterexample :
    (report_hazard noMarkerRequest initDB 7).1 = ReportResult.success 1 ∧
    (report_hazard noMarkerRequest initDB 7).1 ≠ ReportResult.invalidImageFormat := by
  decide

/-- C2 (amended): the format check of `report_hazard` is only
`startswith('data:image')`: a before image without that prefix is
rejected with InvalidImageFormat, while one carrying the prefix is
never rejected with InvalidImageFormat even when the rest does not
match the documented pattern — it is either accepted or mapped to an
internal (500) error by the exception handler. -/
theorem c2_prefix_check_only (req : ReportRequest) (db : DB) (now : Nat)
    (s : List Char)
    (hv : firstMissingField req = none)
    (hb : req.before_image = some (.str s)) :
    (("data:image".toList).isPrefixOf s = false →
      report_hazard req db now = (.invalidImageFormat, db, [])) ∧
    (("data:image".toList).isPrefixOf s = true →
      (report_hazard req db now).1 ≠ .invalidImageFormat) := by
  constructor
  · intro hpre
    simp at hpre
    simp [report_hazard, hv, hb, hpre]
  · intro hpre
    rw [List.isPrefixOf_iff_prefix] at hpre
    simp at hpre
    cases hi : ingestImage s with
    | none => simp [report_hazard, hv, hb, hpre, hi]
    | some pr => simp [report_hazard, hv, hb, hpre, hi]

/-- Witness for C2 (amended): a before image not starting with
`data:image` is rejected with InvalidImageFormat and nothing changes. -/
theorem c2_prefix_check_only_witness :
    report_hazard { sampleRequest with before_image := some (.str ("notanimage".toList)) }
        initDB 7 = (.invalidImageFormat, initDB, []) :=
  (c2_prefix_check_only
      { sampleRequest with before_image := some (.str ("notanimage".toList)) }
      initDB 7 ("notanimage".toList) (by decide) rfl).1 (by decide)

/-- C3: a valid submission — all four fields present and truthy, the
before image a well-formed image data URI — succeeds, returns the new
row's id, which is strictly greater than every previously issued id,
and inserts a row with status Pending, no after image and
`date_reported` equal to the creation time. -/
theorem c3_valid_submission (req : ReportRequest) (db : DB) (now : Nat)
    (s ext : List Char) (bytes : List Nat)
    (hreach : Reachable db)
    (hv : firstMissingField req = none)
    (hb : req.before_image = some (.str s))
    (hpre : ("data:image".toList).isPrefixOf s = true)
    (hing : ingestImage s = some (ext, bytes)) :
    report_hazard req db now =
      (.success db.nextId,
       { rows := db.rows ++
           [{ id := db.nextId
              before_image := mkFilename ("hazard".toList) now ext
              after_image := none
              description := (req.description).getD .null
              latitude := (req.latitude).getD .null
              longitude := (req.longitude).getD .null
              status := "Pending".toList
              date_reported := now
              date_resolved := none }],
         nextId := db.nextId + 1 },
       [(mkFilename ("hazard".toList) now ext, bytes)]) ∧
    (∀ r ∈ db.rows, r.id < db.nextId) := by
  refine ⟨?_, reachable_idsBelowNext db hreach⟩
  rw [List.isPrefixOf_iff_prefix] at hpre
  simp at hpre
  simp [report_hazard, hv, hb, hpre, hing]

/-- Witness for C3: the sample submission against the initial database
at time 7 inserts row 1 as Pending. -/
theorem c3_valid_submission_witness :
    report_hazard sampleRequest initDB 7 =
      (.success initDB.nextId,
       { rows := initDB.rows ++
           [{ id := initDB.nextId
              before_image := mkFilename ("hazard".toList) 7 ("png".toList)
              after_image := none
              description := (sampleRequest.description).getD .null
              latitude := (sampleRequest.latitude).getD .null
              longitude := (sampleRequest.longitude).getD .null
              status := "Pending".toList
              date_reported := 7
              date_resolved := none }],
         nextId := initDB.nextId + 1 },
       [(mkFilename ("hazard".toList) 7 ("png".toList), [65])]) ∧
    (∀ r ∈ initDB.rows, r.id < initDB.nextId) :=
  c3_valid_submission sampleRequest initDB 7
    ("data:image/png;base64,QQ==".toList) ("png".toList) [65]
    Relation.ReflTransGen.refl (by decide) rfl (by decide) (by decide)

/-- C4: a report call in which a required field is absent or empty
fails with MissingField naming a missing field (the first such field in
the checked order), with no row inserted and no file written. -/
theorem c4_missing_field_rejected (req : ReportRequest) (db : DB) (now : Nat)
    (f : List Char) (hf : f ∈ reportRequiredFields)
    (hm : truthyOpt (req.getField f) = false) :
    ∃ g, g ∈ reportRequiredFields ∧ truthyOpt (req.getField g) = false ∧
      report_hazard req db now = (.missingField g, db, []) := by
  by_cases h1 : truthyOpt req.before_image = true
  case neg =>
    simp only [Bool.not_eq_true] at h1
    refine ⟨"before_image".toList, by simp [reportRequiredFields], ?_, ?_⟩
    · simp [ReportRequest.getField, h1]
    · simp [report_hazard, firstMissingField, h1]
  case pos =>
  by_cases h2 : truthyOpt req.description = true
  case neg =>
    simp only [Bool.not_eq_true] at h2
    refine ⟨"description".toList, by simp [reportRequiredFields], ?_, ?_⟩
    · simp [ReportRequest.getField, h2]
    · simp [report_hazard, firstMissingField, h1, h2]
  case pos =>
  by_cases h3 : truthyOpt req.latitude = true
  case neg =>
    simp only [Bool.not_eq_true] at h3
    refine ⟨"latitude".toList, by simp [reportRequiredFields], ?_, ?_⟩
    · simp [ReportRequest.getField, h3]
    · simp [report_hazard, firstMissingField, h1, h2, h3]
  case pos =>
  by_cases h4 : truthyOpt req.longitude = true
  case neg =>
    simp only [Bool.not_eq_true] at h4
    refine ⟨"longitude".toList, by simp [reportRequiredFields], ?_, ?_⟩
    · simp [ReportRequest.getField, h4]
    · simp [report_hazard, firstMissingField, h1, h2, h3, h4]
  case pos =>
  exfalso
  simp [reportRequiredFields] at hf
  rcases hf with hf | hf | hf | hf <;> subst hf <;>
    simp [ReportRequest.getField, h1, h2, h3, h4] at hm

/-- Witness for C4: a request lacking the latitude field is rejected
with a MissingField error and no change. -/
theorem c4_missing_field_rejected_witness :
    ∃ g, g ∈ reportRequiredFields ∧
      truthyOpt (ReportRequest.getField { sampleRequest with latitude := none } g) = false ∧
      report_hazard { sampleRequest with latitude := none } initDB 7
        = (.missingField g, initDB, []) :=
  c4_missing_field_rejected { sampleRequest with latitude := none } initDB 7
    ("latitude".toList) (by decide) (by decide)

/-- C10: when latitude or longitude is present but equal to 0 — a
valid coordinate — the truthiness test treats it as missing, so the
submission is rejected with MissingField for that coordinate and no
row is created. -/
theorem c10_zero_coordinate_rejected (req : ReportRequest) (db : DB) (now : Nat)
    (hb : truthyOpt req.before_image = true)
    (hd : truthyOpt req.description = true) :
    (req.latitude = some (.num 0) →
      report_hazard req db now = (.missingField ("latitude".toList), db, [])) ∧
    (truthyOpt req.latitude = true → req.longitude = some (.num 0) →
      report_hazard req db now = (.missingField ("longitude".toList), db, [])) := by
  constructor
  · intro hlat
    have hz : truthyOpt req.latitude = false := by
      simp [hlat, truthyOpt, Json.truthy]
    simp [report_hazard, firstMissingField, hb, hd, hz]
  · intro hlat hlng
    have hz : truthyOpt req.longitude = false := by
      simp [hlng, truthyOpt, Json.truthy]
    simp [report_hazard, firstMissingField, hb, hd, hlat, hz]

/-- Witness for C10: a request with latitude 0 is rejected as missing
that field. -/
theorem c10_zero_coordinate_rejected_witness :
    report_hazard { sampleRequest with latitude := some (.num 0) } initDB 7
      = (.missingField ("latitude".toList), initDB, []) :=
  (c10_zero_coordinate_rejected { sampleRequest with latitude := some (.num 0) }
      initDB 7 (by decide) (by decide)).1 rfl

/-- C6: `resolve_hazard` checks no existence or status precondition on
the report id: with a valid session and image it always reports
success and still writes the after-image file; when no row carries the
id, the table is left unchanged (a no-op update); a row carrying the
id — even one already Resolved — gets its `after_image` and
`date_resolved` overwritten with the new values. -/
theorem c6_no_precondition_check (rid now : Nat) (db : DB) (s ext : List Char)
    (bytes : List Nat)
    (hpre : ("data:image".toList).isPrefixOf s = true)
    (hing : ingestImage s = some (ext, bytes)) :
    (resolve_hazard rid true { after_image := some (.str s) } db now).1 = .success ∧
    (resolve_hazard rid true { after_image := some (.str s) } db now).2.2
      = [(mkFilename ("resolved".toList) now ext, bytes)] ∧
    ((∀ r ∈ db.rows, r.id ≠ rid) →
      (resolve_hazard rid true { after_image := some (.str s) } db now).2.1 = db) ∧
    (∀ r ∈ db.rows, r.id = rid → r.status = "Resolved".toList →
      { r with after_image := some (mkFilename ("resolved".toList) now ext),
               status := "Resolved".toList, date_resolved := some now }
        ∈ (resolve_hazard rid true { after_image := some (.str s) } db now).2.1.rows) := by
  have hs : s ≠ [] := by
    intro he; subst he; simp [List.isPrefixOf] at hpre
  have htr : Json.truthy (.str s) = true := by
    simp [Json.truthy, hs]
  rw [List.isPrefixOf_iff_prefix] at hpre
  simp at hpre
  have heval : resolve_hazard rid true { after_image := some (.str s) } db now
      = (.success,
         { db with rows := db.rows.map (resolveUpdate rid (mkFilename ("resolved".toList) now ext) now) },
         [(mkFilename ("resolved".toList) now ext, bytes)]) := by
    simp [resolve_hazard, htr, hpre, hing]
  rw [heval]
  refine ⟨rfl, rfl, ?_, ?_⟩
  · intro h
    have hmap : db.rows.map
        (resolveUpdate rid (mkFilename ("resolved".toList) now ext) now) = db.rows := by
      refine (List.map_congr_left ?_).trans (List.map_id _)
      intro r hr
      simp [resolveUpdate, h r hr]
    simp at hmap
    simp [hmap]
  · intro r hr hid _
    have hmem := List.mem_map_of_mem
      (resolveUpdate rid (mkFilename ("resolved".toList) now ext) now) hr
    rwa [show resolveUpdate rid (mkFilename ("resolved".toList) now ext) now r
        = { r with after_image := some (mkFilename ("resolved".toList) now ext),
                   status := "Resolved".toList, date_resolved := some now } by
      simp [resolveUpdate, hid]] at hmem

/-- Witness for C6: resolving the already-resolved row 1 succeeds and
overwrites its after image and resolution date with the new values. -/
theorem c6_no_precondition_check_witness :
    { resolvedSampleRow with
        after_image := some (mkFilename ("resolved".toList) 9 ("png".toList)),
        status := "Resolved".toList, date_resolved := some 9 }
      ∈ (resolve_hazard 1 true { after_image := some (.str ("data:image/png;base64,QQ==".toList)) }
          { rows := [resolvedSampleRow], nextId := 2 } 9).2.1.rows :=
  (c6_no_precondition_check 1 9 { rows := [resolvedSampleRow], nextId := 2 }
      ("data:image/png;base64,QQ==".toList) ("png".toList) [65]
      (by decide) (by decide)).2.2.2 resolvedSampleRow (by simp) rfl rfl

/-- C7: a resolve with a valid session and image targeting an existing
row rewrites the table exactly by the UPDATE row transformation: rows
with other ids are kept unchanged, and the targeted row keeps its id,
before image, description, coordinates and report date while only
`after_image`, `status` and `date_resolved` change. -/
theorem c7_update_frame (rid now : Nat) (db : DB) (s ext : List Char)
    (bytes : List Nat)
    (hpre : ("data:image".toList).isPrefixOf s = true)
    (hing : ingestImage s = some (ext, bytes))
    (hex : ∃ r ∈ db.rows, r.id = rid) :
    (resolve_hazard rid true { after_image := some (.str s) } db now).2.1.rows
      = db.rows.map (resolveUpdate rid (mkFilename ("resolved".toList) now ext) now) ∧
    (∀ r ∈ db.rows, r.id ≠ rid →
      r ∈ (resolve_hazard rid true { after_image := some (.str s) } db now).2.1.rows) ∧
    (∀ r ∈ db.rows, r.id = rid →
      ∃ r' ∈ (resolve_hazard rid true { after_image := some (.str s) } db now).2.1.rows,
        r'.id = r.id ∧ r'.before_image = r.before_image ∧
        r'.description = r.description ∧ r'.latitude = r.latitude ∧
        r'.longitude = r.longitude ∧ r'.date_reported = r.date_reported ∧
        r'.after_image = some (mkFilename ("resolved".toList) now ext) ∧
        r'.status = "Resolved".toList ∧ r'.date_resolved = some now) := by
  have hs : s ≠ [] := by
    intro he; subst he; simp [List.isPrefixOf] at hpre
  have htr : Json.truthy (.str s) = true := by
    simp [Json.truthy, hs]
  rw [List.isPrefixOf_iff_prefix] at hpre
  simp at hpre
  have heval : resolve_hazard rid true { after_image := some (.str s) } db now
      = (.success,
         { db with rows := db.rows.map (resolveUpdate rid (mkFilename ("resolved".toList) now ext) now) },
         [(mkFilename ("resolved".toList) now ext, bytes)]) := by
    simp [resolve_hazard, htr, hpre, hing]
  rw [heval]
  refine ⟨rfl, ?_, ?_⟩
  · intro r hr hne
    have hmem := List.mem_map_of_mem
      (resolveUpdate rid (mkFilename ("resolved".toList) now ext) now) hr
    rwa [show resolveUpdate rid (mkFilename ("resolved".toList) now ext) now r = r by
      simp [resolveUpdate, hne]] at hmem
  · intro r hr hid
    refine ⟨resolveUpdate rid (mkFilename ("resolved".toList) now ext) now r,
      List.mem_map_of_mem _ hr, ?_⟩
    simp [resolveUpdate, hid]

/-- Witness for C7: resolving row 2 of a two-row table leaves row 1
untouched. -/
theorem c7_update_frame_witness :
    sampleRow 1 4 ∈ (resolve_hazard 2 true afterRequest
      { rows := [sampleRow 1 4, sampleRow 2 5], nextId := 3 } 9).2.1.rows :=
  (c7_update_frame 2 9 { rows := [sampleRow 1 4, sampleRow 2 5], nextId := 3 }
      ("data:image/png;base64,QQ==".toList) ("png".toList) [65]
      (by decide) (by decide) ⟨sampleRow 2 5, by simp, rfl⟩).2.1
    (sampleRow 1 4) (by simp) (by decide)

/-- C9: ingesting `data:image/png;base64,<p>` for a decodable base64
payload `p` stores exactly the base64 decoding of `p`, and decoding
inverts encoding, so content read back from the stored file is
byte-identical to the originally encoded content. -/
theorem c9_base64_roundtrip (p : List Char) (bytes content : List Nat)
    (hp : b64decode p = some bytes) (hc : ∀ b ∈ content, b < 256) :
    ingestImage ("data:image/png;base64,".toList ++ p) = some ("png".toList, bytes) ∧
    b64decode (b64encode content) = some content :=
  ⟨ingestImage_png p bytes hp, b64_roundtrip content hc⟩

/-- Witness for C9 on the payload `TWFu` = the bytes of `Man`. -/
theorem c9_base64_roundtrip_witness :
    ingestImage ("data:image/png;base64,".toList ++ "TWFu".toList)
      = some ("png".toList, [77, 97, 110]) ∧
    b64decode (b64encode [77, 97, 110]) = some [77, 97, 110] :=
  c9_base64_roundtrip ("TWFu".toList) [77, 97, 110] [77, 97, 110]
    (by decide) (by decide)
